import Mathlib

/-!
Verification development for the gridded-forecast construction engine
(`gg_utils/gridded_forecasts.py`): distance-buffer validation, area
normalization of probabilities, polygon rasterization onto a sorted grid,
integer-shift translation of grid membership under extrapolation, the
lead-time schedule, and the per-cell probability accumulator.

Numbers that are IEEE doubles in the source are modelled as rationals
(`ℚ`) or reals (`ℝ`); NaN-able scalars (buffer minimum distances, cells
of the finalized probability grid) are modelled as `Option` values with
`none` playing the role of NaN.  Python exceptions are modelled with
`Except String`.
-/

/-- `numpy.round` on a rational scalar: round half to even ("banker's
rounding"), returning an integer. -/
def nround (q : ℚ) : ℤ :=
  let f : ℤ := ⌊q⌋
  let r : ℚ := q - f
  if r < 1/2 then f
  else if 1/2 < r then f + 1
  else if f % 2 = 0 then f else f + 1

/-- Python `int(...)` applied to a float value: truncation toward zero. -/
def itrunc (q : ℚ) : ℤ :=
  if 0 ≤ q then ⌊q⌋ else -⌊-q⌋

theorem nround_intCast (n : ℤ) : nround (n : ℚ) = n := by
  simp [nround]

theorem itrunc_intCast (n : ℤ) : itrunc (n : ℚ) = n := by
  unfold itrunc
  rcases le_or_lt 0 n with h | h
  · rw [if_pos (by exact_mod_cast h), Int.floor_intCast]
  · rw [if_neg (by exact_mod_cast not_le.mpr h), ← Int.cast_neg, Int.floor_intCast,
      neg_neg]

/-!
## Distance-buffer validation (`_check_distance_buffers`)

A distance buffer is a pair `(min_distance, max_distance)` of metre
values; the minimum distance may be NaN (modelled as `none`) for the
innermost buffer.  The source function:

1. asserts every non-NaN minimum distance is ≥ 0
   (`error_checking.assert_is_geq_numpy_array(..., 0., allow_nan=True)`);
2. sorts the buffers by maximum distance (`numpy.argsort`) and rounds
   both distance arrays to the nearest metre (`numpy.round`);
3. for each buffer in sorted order: if the minimum is NaN it asserts
   the maximum is ≥ 0, otherwise that the maximum is strictly greater
   than the minimum; and for each buffer after the first it raises
   unless its (rounded) minimum equals the previous buffer's (rounded)
   maximum.  (A NaN minimum after the first position also raises, since
   NaN compares unequal to everything.)
-/

/-- One distance buffer: optional (NaN-able) min distance and max distance. -/
abbrev DistBuffer : Type := Option ℚ × ℚ

/-- Rounds both distances of a buffer to the nearest metre (`numpy.round`);
NaN (`none`) stays NaN. -/
def roundBuffer (b : DistBuffer) : Option ℤ × ℤ :=
  (b.1.map nround, nround b.2)

/-- Sorts buffers by max distance, as `numpy.argsort(max_distances_metres)`
does.  (Ties cannot occur in any passing configuration, so the choice of a
stable sort is immaterial to the validation outcome.) -/
def sortByMaxDistance (bs : List DistBuffer) : List DistBuffer :=
  List.insertionSort (fun a b => a.2 ≤ b.2) bs

/-- The rounded, sorted buffer list that the validation loop of
`_check_distance_buffers` actually inspects. -/
def roundedSorted (bs : List DistBuffer) : List (Option ℤ × ℤ) :=
  (sortByMaxDistance bs).map roundBuffer

/-- The per-buffer loop of `_check_distance_buffers`, running over the
rounded sorted list.  `prevMax = none` marks the first iteration (`j = 0`),
which is exempt from the abutment comparison. -/
def checkLoop : Option ℤ → List (Option ℤ × ℤ) → Except String Unit
  | _, [] => .ok ()
  | prevMax, (mn, mx) :: rest =>
    match mn with
    | none =>
      if 0 ≤ mx then
        match prevMax with
        | none => checkLoop (some mx) rest
        | some _ => .error "buffers are not abutting"
      else .error "assertion failed: max distance must be at least 0"
    | some m =>
      if m < mx then
        match prevMax with
        | none => checkLoop (some mx) rest
        | some pm =>
          if m = pm then checkLoop (some mx) rest
          else .error "buffers are not abutting"
      else .error "assertion failed: max distance must exceed min distance"

/-- The guard `error_checking.assert_is_geq_numpy_array(min_distances, 0.,
allow_nan=True)`: every non-NaN minimum distance must be ≥ 0. -/
def minNonnegB (b : DistBuffer) : Bool :=
  match b.1 with
  | none => true
  | some m => decide (0 ≤ m)

/-- `_check_distance_buffers`: validates that distance buffers are unique
and abutting, raising `ValueError` (modelled as `.error`) otherwise. -/
def check_distance_buffers (bs : List DistBuffer) : Except String Unit :=
  if bs.all minNonnegB then
    checkLoop none (roundedSorted bs)
  else .error "assertion failed: min distances must be at least 0"

/-- Specification predicate: the rounded sorted buffer list forms a valid
abutting chain starting from previous-max `prev`: a NaN minimum is allowed
only in the first position (with max ≥ 0), every other buffer has
max > min, and each buffer's minimum equals the previous buffer's maximum. -/
def ChainFrom (prev : Option ℤ) : List (Option ℤ × ℤ) → Prop
  | [] => True
  | (mn, mx) :: rest =>
    (match mn, prev with
     | none, none => 0 ≤ mx
     | none, some _ => False
     | some m, none => m < mx
     | some m, some pm => m < mx ∧ m = pm) ∧ ChainFrom (some mx) rest

/-- Claim predicate, transcribed from the claim's own words on the raw
(unrounded) distances: the innermost buffer has NaN minimum with max ≥ 0,
every later buffer's minimum distance equals the previous buffer's maximum
distance, and every buffer's maximum exceeds its (non-NaN) minimum. -/
def specRawChain : Option ℚ → List DistBuffer → Bool
  | _, [] => true
  | prev, (mn, mx) :: rest =>
    (match mn, prev with
     | none, none => decide (0 ≤ mx)
     | none, some _ => false
     | some m, none => decide (0 ≤ m ∧ m < mx)
     | some m, some pm => decide (m = pm ∧ m < mx)) && specRawChain (some mx) rest

theorem checkLoop_ok_iff (l : List (Option ℤ × ℤ)) :
    ∀ prev, checkLoop prev l = .ok () ↔ ChainFrom prev l := by
  induction l with
  | nil => intro prev; simp [checkLoop, ChainFrom]
  | cons b rest ih =>
    intro prev
    obtain ⟨mn, mx⟩ := b
    cases mn with
    | none =>
      cases prev with
      | none =>
        by_cases h : 0 ≤ mx <;> simp [checkLoop, ChainFrom, h, ih]
      | some pm =>
        by_cases h : 0 ≤ mx <;> simp [checkLoop, ChainFrom, h]
    | some m =>
      cases prev with
      | none =>
        by_cases h : m < mx <;> simp [checkLoop, ChainFrom, h, ih]
      | some pm =>
        by_cases h : m < mx
        · by_cases he : m = pm
          · subst he; simp [checkLoop, ChainFrom, h, ih]
          · simp [checkLoop, ChainFrom, h, he]
        · simp [checkLoop, ChainFrom, h]

theorem minNonnegB_iff (b : DistBuffer) :
    minNonnegB b = true ↔ ∀ m : ℚ, b.1 = some m → 0 ≤ m := by
  obtain ⟨mn, mx⟩ := b
  cases mn <;> simp [minNonnegB]

/-- C1 (amended): `_check_distance_buffers` returns normally if and only if
every raw non-NaN minimum distance is nonnegative and, after sorting the
buffers by maximum distance and rounding to the nearest metre, the list is
a valid abutting chain: a NaN minimum occurs only in the first position
(with rounded max ≥ 0), every buffer's rounded max strictly exceeds its
rounded min, and each buffer's rounded min equals the previous buffer's
rounded max.  In particular it raises whenever some adjacent sorted pair
has rounded `min[j+1] != max[j]` (so also for duplicated buffers), but a
raw abutting chain can still fail when metre rounding collapses a buffer's
distances. -/
theorem check_distance_buffers_ok_iff (bs : List DistBuffer) :
    check_distance_buffers bs = .ok () ↔
      ((∀ b ∈ bs, ∀ m : ℚ, b.1 = some m → 0 ≤ m) ∧
        ChainFrom none (roundedSorted bs)) := by
  unfold check_distance_buffers
  by_cases hg : bs.all minNonnegB = true
  · have hmins : ∀ b ∈ bs, ∀ m : ℚ, b.1 = some m → 0 ≤ m := by
      intro b hb
      exact (minNonnegB_iff b).mp (List.all_eq_true.mp hg b hb)
    rw [if_pos hg, checkLoop_ok_iff]
    exact ⟨fun h => ⟨hmins, h⟩, fun h => h.2⟩
  · rw [if_neg hg]
    constructor
    · intro h; exact absurd h (by simp)
    · rintro ⟨h1, _⟩
      exact absurd (List.all_eq_true.mpr fun b hb => (minNonnegB_iff b).mpr (h1 b hb)) hg

/-- C1 counterexample: the buffer set `[(NaN, 0.3 m), (0.3 m, 0.4 m)]` is
already sorted by max distance and is an abutting chain of the raw
distances exactly as the claim describes (innermost NaN minimum with
max ≥ 0, the next buffer's minimum equal to the previous maximum, max
strictly above min), yet validation raises: both distances of the outer
buffer round to 0 metres, and the rounded max must strictly exceed the
rounded min. -/
theorem check_distance_buffers_claim_cex :
    specRawChain none [(none, 3/10), (some (3/10), 2/5)] = true ∧
      sortByMaxDistance [(none, 3/10), (some (3/10), 2/5)] =
        [(none, 3/10), (some (3/10), 2/5)] ∧
      check_distance_buffers [(none, 3/10), (some (3/10), 2/5)] ≠ .ok () := by
  refine ⟨?_, ?_, ?_⟩
  · norm_num [specRawChain]
  · norm_num [sortByMaxDistance, List.insertionSort, List.orderedInsert]
  · norm_num [check_distance_buffers, minNonnegB, roundedSorted, sortByMaxDistance,
      List.insertionSort, List.orderedInsert, roundBuffer, nround, checkLoop]
    exact fun h => Except.noConfusion h

/-!
## Area normalization (`_normalize_probs_by_polygon_area`)

For each buffer the source computes, elementwise over the storm objects,

  `f_norm = 1 - (1 - f_polygon) ** (pi * r**2 / A)`

with `A` the planar area of the buffer polygon and `r` the effective
probability radius.  The body contains no validation and no raise site:
out-of-range probabilities or non-positive areas flow through
`numpy.power` / division (which warn rather than raise).
-/

/-- The scalar normalization formula applied by
`_normalize_probs_by_polygon_area` to each (probability, area) pair. -/
noncomputable def normalize_probability_by_area (p A r : ℝ) : ℝ :=
  1 - (1 - p) ^ (Real.pi * r ^ 2 / A)

/-- `_normalize_probs_by_polygon_area` for one buffer column: maps the
normalization formula over the parallel probability and area arrays.  The
`Except` layer records Python's exception channel; the source body has no
raise statement, so the result is always `.ok`. -/
noncomputable def normalize_probs_by_polygon_area (probs areas : List ℝ)
    (prob_radius_for_grid_metres : ℝ) : Except String (List ℝ) :=
  .ok (List.zipWith
    (fun p A => normalize_probability_by_area p A prob_radius_for_grid_metres)
    probs areas)

/-- C2: for `p ∈ [0,1]`, `A > 0`, `r > 0`, the area-normalized probability
`1 - (1-p)^(pi r^2 / A)` lies in `[0,1]`, and equals `p` exactly when
`A = pi r^2`. -/
theorem normalize_probability_by_area_bounds (p A r : ℝ)
    (hp0 : 0 ≤ p) (hp1 : p ≤ 1) (hA : 0 < A) (hr : 0 < r) :
    normalize_probability_by_area p A r ∈ Set.Icc (0:ℝ) 1 ∧
      (A = Real.pi * r ^ 2 → normalize_probability_by_area p A r = p) := by
  have hbase0 : (0:ℝ) ≤ 1 - p := by linarith
  have hbase1 : 1 - p ≤ 1 := by linarith
  have hexp : 0 ≤ Real.pi * r ^ 2 / A := by positivity
  have h1 : (1 - p) ^ (Real.pi * r ^ 2 / A) ≤ 1 :=
    Real.rpow_le_one hbase0 hbase1 hexp
  have h2 : 0 ≤ (1 - p) ^ (Real.pi * r ^ 2 / A) :=
    Real.rpow_nonneg hbase0 _
  refine ⟨⟨by simp only [normalize_probability_by_area]; linarith,
           by simp only [normalize_probability_by_area]; linarith⟩, ?_⟩
  intro hAeq
  have hone : Real.pi * r ^ 2 / A = 1 := by
    rw [hAeq]
    exact div_self (by positivity)
  simp [normalize_probability_by_area, hone]

/-- Witness for C2 at `p = 1/2`, `A = pi`, `r = 1`. -/
theorem normalize_probability_by_area_bounds_witness :
    normalize_probability_by_area (1/2) Real.pi 1 ∈ Set.Icc (0:ℝ) 1 ∧
      (Real.pi = Real.pi * 1 ^ 2 →
        normalize_probability_by_area (1/2) Real.pi 1 = 1/2) :=
  normalize_probability_by_area_bounds (1/2) Real.pi 1 (by norm_num)
    (by norm_num) Real.pi_pos (by norm_num)

/-- C8 counterexample: with forecast probability 2 (outside `[0,1]`) and
polygon area -1 (non-positive), area normalization still returns normally
(`.ok`); no invalid-probability validation exists in the code. -/
theorem normalize_probs_no_validation_cex :
    (normalize_probs_by_polygon_area [2] [-1] 1).isOk = true ∧
      ¬ ((0:ℝ) ≤ 2 ∧ (2:ℝ) ≤ 1) ∧ (-1:ℝ) ≤ 0 :=
  ⟨rfl, by norm_num, by norm_num⟩

/-- C8 (amended): `_normalize_probs_by_polygon_area` performs no input
validation at all and never raises, for any probabilities, areas, or
radius — in particular it never raises under the claim's precondition of
in-range probabilities and positive areas. -/
theorem normalize_probs_by_polygon_area_never_raises
    (probs areas : List ℝ) (r : ℝ) :
    (normalize_probs_by_polygon_area probs areas r).isOk = true := rfl

/-!
## Rasterization (`_find_grid_points_in_polygon` and helpers)

The rasterizer computes the polygon's bounding box, uses
`numpy.searchsorted` on the ascending grid-coordinate arrays to restrict
the candidate index window, and then tests each candidate grid point with
`polygons.point_in_or_on_polygon`.

`_find_min_value_greater_or_equal` indexes the array at
`searchsorted(..., side='left')`, which equals the array length when every
element is below the test value — a raising `IndexError` in numpy.
`_find_max_value_less_than_or_equal` indexes at
`searchsorted(..., side='right') - 1`, which can be `-1`; numpy interprets
`-1` as the last element (wraparound), a non-raising path.
-/

/-- A polygon in planar coordinates: first exterior vertex (as exposed by
`polygon.exterior.xy[...][0]`), remaining exterior vertices, and the
point-in-or-on-polygon test (shapely, treated as an abstract predicate). -/
structure XYPolygon where
  x0 : ℚ
  y0 : ℚ
  restVerts : List (ℚ × ℚ)
  mem : ℚ → ℚ → Bool

def XYPolygon.minX (P : XYPolygon) : ℚ := (P.restVerts.map Prod.fst).foldl min P.x0

def XYPolygon.maxX (P : XYPolygon) : ℚ := (P.restVerts.map Prod.fst).foldl max P.x0

def XYPolygon.minY (P : XYPolygon) : ℚ := (P.restVerts.map Prod.snd).foldl min P.y0

def XYPolygon.maxY (P : XYPolygon) : ℚ := (P.restVerts.map Prod.snd).foldl max P.y0

/-- `numpy.searchsorted(a, v, side='left')` on an ascending array: the
number of elements strictly below `v`. -/
def searchsortedLeft (a : List ℚ) (v : ℚ) : ℕ :=
  a.countP (fun x => decide (x < v))

/-- `numpy.searchsorted(a, v, side='right')` on an ascending array: the
number of elements at most `v`. -/
def searchsortedRight (a : List ℚ) (v : ℚ) : ℕ :=
  a.countP (fun x => decide (x ≤ v))

/-- `_find_min_value_greater_or_equal`: indexes the sorted array at the
left-side insertion point; raises `IndexError` when the test value exceeds
every element. -/
def find_min_value_greater_or_equal (a : List ℚ) (v : ℚ) :
    Except String (ℚ × ℕ) :=
  let i := searchsortedLeft a v
  if h : i < a.length then .ok (a.get ⟨i, h⟩, i)
  else .error "index out of bounds"

/-- `_find_max_value_less_than_or_equal`: indexes the sorted array at the
right-side insertion point minus one; index `-1` wraps around to the last
element, numpy-style. -/
def find_max_value_less_than_or_equal (a : List ℚ) (v : ℚ) :
    Except String (ℚ × ℤ) :=
  let i : ℤ := (searchsortedRight a v : ℤ) - 1
  let j : ℤ := if i < 0 then i + a.length else i
  if h : j.toNat < a.length ∧ 0 ≤ j then .ok (a.get ⟨j.toNat, h.1⟩, i)
  else .error "index out of bounds"

/-- Python `range(lo, hi)` over integers. -/
def intRange (lo hi : ℤ) : List ℤ :=
  (List.range (hi - lo).toNat).map (fun k => lo + k)

/-- Total grid-coordinate read used inside the candidate loops (the loops
only ever produce in-range indices). -/
def getQ (a : List ℚ) (i : ℤ) : ℚ := a.getD i.toNat 0

/-- `_find_grid_points_in_polygon`: bounding box, `searchsorted` index
window, then the boundary-inclusive point-in-polygon test over the
candidate window, accumulating matched (row, column) pairs in row-major
order. -/
def find_grid_points_in_polygon (P : XYPolygon) (xs ys : List ℚ) :
    Except String (List ℤ × List ℤ) :=
  match find_min_value_greater_or_equal ys P.minY with
  | .error e => .error e
  | .ok rmin =>
    match find_max_value_less_than_or_equal ys P.maxY with
    | .error e => .error e
    | .ok rmax =>
      match find_min_value_greater_or_equal xs P.minX with
      | .error e => .error e
      | .ok cmin =>
        match find_max_value_less_than_or_equal xs P.maxX with
        | .error e => .error e
        | .ok cmax =>
          let pairs := (intRange (rmin.2 : ℤ) (rmax.2 + 1)).flatMap (fun r =>
            (intRange (cmin.2 : ℤ) (cmax.2 + 1)).filterMap (fun c =>
              if P.mem (getQ xs c) (getQ ys r) then some (r, c) else none))
          .ok (pairs.map Prod.fst, pairs.map Prod.snd)

theorem sorted_le_getLast {a : List ℚ} (hs : a.Sorted (· ≤ ·)) (h : a ≠ []) :
    ∀ x ∈ a, x ≤ a.getLast h := by
  intro x hx
  obtain ⟨i, hi⟩ := List.mem_iff_get.mp hx
  subst hi
  rw [List.getLast_eq_getElem]
  exact hs.rel_get_of_le (by
    have := i.2
    exact Fin.mk_le_mk.mpr (by omega))

theorem sorted_head_le {a : List ℚ} (hs : a.Sorted (· ≤ ·)) (h : a ≠ []) :
    ∀ x ∈ a, a.head h ≤ x := by
  cases a with
  | nil => exact absurd rfl h
  | cons y t =>
    intro x hx
    rcases List.mem_cons.mp hx with hxy | hxt
    · simp [hxy]
    · exact (List.sorted_cons.mp hs).1 x hxt

theorem find_min_geq_ok_iff {a : List ℚ} (v : ℚ) (hs : a.Sorted (· ≤ ·))
    (h : a ≠ []) :
    (∃ out, find_min_value_greater_or_equal a v = .ok out) ↔
      v ≤ a.getLast h := by
  unfold find_min_value_greater_or_equal
  by_cases hlt : searchsortedLeft a v < a.length
  · simp only [hlt, dif_pos]
    constructor
    · intro _
      by_contra hv
      push_neg at hv
      have hall : ∀ x ∈ a, decide (x < v) = true := by
        intro x hx
        simpa using lt_of_le_of_lt (sorted_le_getLast hs h x hx) hv
      have : searchsortedLeft a v = a.length :=
        List.countP_eq_length.mpr hall
      omega
    · intro _; exact ⟨_, rfl⟩
  · simp only [hlt, dif_neg]
    constructor
    · rintro ⟨out, hout⟩; exact absurd hout (by simp)
    · intro hv
      exfalso
      have hle : searchsortedLeft a v ≤ a.length := List.countP_le_length _
      have heq : searchsortedLeft a v = a.length := by omega
      have hlast : decide (a.getLast h < v) = true :=
        List.countP_eq_length.mp heq _ (List.getLast_mem h)
      simp at hlast
      exact absurd hv (not_le.mpr hlast)

theorem find_max_leq_ok {a : List ℚ} (v : ℚ) (h : a ≠ []) :
    ∃ val, find_max_value_less_than_or_equal a v =
      .ok (val, (searchsortedRight a v : ℤ) - 1) := by
  have hlen : 0 < a.length := List.length_pos.mpr h
  have hle : searchsortedRight a v ≤ a.length := List.countP_le_length _
  unfold find_max_value_less_than_or_equal
  by_cases h0 : searchsortedRight a v = 0
  · have hneg : ((searchsortedRight a v : ℤ) - 1) < 0 := by omega
    have hj : ((searchsortedRight a v : ℤ) - 1 + a.length).toNat < a.length ∧
        (0:ℤ) ≤ (searchsortedRight a v : ℤ) - 1 + a.length := by omega
    simp only [if_pos hneg, dif_pos hj]
    exact ⟨_, rfl⟩
  · have hneg : ¬ ((searchsortedRight a v : ℤ) - 1 < 0) := by omega
    have hj : ((searchsortedRight a v : ℤ) - 1).toNat < a.length ∧
        (0:ℤ) ≤ (searchsortedRight a v : ℤ) - 1 := by omega
    simp only [if_neg hneg, dif_pos hj]
    exact ⟨_, rfl⟩

theorem intRange_empty {lo hi : ℤ} (h : hi ≤ lo) : intRange lo hi = [] := by
  simp [intRange, Int.toNat_eq_zero.mpr (by omega : hi - lo ≤ 0)]

theorem flatMap_const_nil {α β : Type} (l : List α) :
    (l.flatMap fun _ => ([] : List β)) = [] := by
  induction l <;> simp [*]

/-- C4 (amended): rasterization returns normally — with possibly empty
index arrays — if and only if the polygon's bounding-box minima do not
exceed the grid maxima (`min_y ≤ max(ys)` and `min_x ≤ max(xs)`); under
that condition a polygon lying entirely below or entirely left of the grid
yields empty arrays.  When the polygon lies entirely above or entirely
right of the grid, `_find_min_value_greater_or_equal` indexes past the end
of the coordinate array and raises `IndexError` instead of returning empty
arrays. -/
theorem find_grid_points_in_polygon_ok_iff (P : XYPolygon) (xs ys : List ℚ)
    (hxs : xs ≠ []) (hys : ys ≠ [])
    (hsx : xs.Sorted (· ≤ ·)) (hsy : ys.Sorted (· ≤ ·)) :
    ((∃ out, find_grid_points_in_polygon P xs ys = .ok out) ↔
      (P.minY ≤ ys.getLast hys ∧ P.minX ≤ xs.getLast hxs)) ∧
    ((P.maxY < ys.head hys ∨ P.maxX < xs.head hxs) →
      P.minY ≤ ys.getLast hys → P.minX ≤ xs.getLast hxs →
      find_grid_points_in_polygon P xs ys = .ok ([], [])) := by
  constructor
  · constructor
    · rintro ⟨out, hout⟩
      cases hy : find_min_value_greater_or_equal ys P.minY with
      | error e => simp [find_grid_points_in_polygon, hy] at hout
      | ok ry =>
        obtain ⟨vy, hymax⟩ := find_max_leq_ok P.maxY hys
        cases hx : find_min_value_greater_or_equal xs P.minX with
        | error e => simp [find_grid_points_in_polygon, hy, hymax, hx] at hout
        | ok rx =>
          exact ⟨(find_min_geq_ok_iff P.minY hsy hys).mp ⟨ry, hy⟩,
                 (find_min_geq_ok_iff P.minX hsx hxs).mp ⟨rx, hx⟩⟩
    · rintro ⟨hminY, hminX⟩
      obtain ⟨oy, hy⟩ := (find_min_geq_ok_iff P.minY hsy hys).mpr hminY
      obtain ⟨vy, hymax⟩ := find_max_leq_ok P.maxY hys
      obtain ⟨ox, hx⟩ := (find_min_geq_ok_iff P.minX hsx hxs).mpr hminX
      obtain ⟨vx, hxmax⟩ := find_max_leq_ok P.maxX hxs
      exact ⟨_, by rw [find_grid_points_in_polygon, hy, hymax, hx, hxmax]⟩
  · intro hside hminY hminX
    obtain ⟨oy, hy⟩ := (find_min_geq_ok_iff P.minY hsy hys).mpr hminY
    obtain ⟨vy, hymax⟩ := find_max_leq_ok P.maxY hys
    obtain ⟨ox, hx⟩ := (find_min_geq_ok_iff P.minX hsx hxs).mpr hminX
    obtain ⟨vx, hxmax⟩ := find_max_leq_ok P.maxX hxs
    rcases hside with hY | hX
    · have h0 : searchsortedRight ys P.maxY = 0 := by
        apply List.countP_eq_zero.mpr
        intro y hy2
        simpa using not_le.mpr (lt_of_lt_of_le hY (sorted_head_le hsy hys y hy2))
      rw [h0] at hymax
      rw [find_grid_points_in_polygon, hy, hymax, hx, hxmax]
      simp
      intro r hr
      rw [intRange_empty (by omega : (0:ℤ) ≤ (oy.2 : ℤ))] at hr
      exact absurd hr (List.not_mem_nil r)
    · have h0 : searchsortedRight xs P.maxX = 0 := by
        apply List.countP_eq_zero.mpr
        intro x hx2
        simpa using not_le.mpr (lt_of_lt_of_le hX (sorted_head_le hsx hxs x hx2))
      rw [h0] at hxmax
      rw [find_grid_points_in_polygon, hy, hymax, hx, hxmax]
      simp
      intro r hr c hc
      rw [intRange_empty (by omega : (0:ℤ) ≤ (ox.2 : ℤ))] at hc
      exact absurd hc (List.not_mem_nil c)

/-- C4 counterexample polygon: a square spanning y in [5, 6], entirely
above a grid whose y-coordinates are [0, 1]. -/
def polyAboveGrid : XYPolygon :=
  { x0 := 0, y0 := 5, restVerts := [(1, 5), (1, 6), (0, 6)],
    mem := fun _ _ => true }

/-- C4 witness polygon: a square spanning y in [-5, -4], entirely below a
grid whose y-coordinates are [0, 1]. -/
def polyBelowGrid : XYPolygon :=
  { x0 := 0, y0 := -5, restVerts := [(1, -5), (1, -4), (0, -4)],
    mem := fun _ _ => true }

/-- C4 counterexample: for a polygon entirely above the grid (and inside
the grid's x-range), `_find_grid_points_in_polygon` raises `IndexError`
via `_find_min_value_greater_or_equal` instead of returning empty
arrays. -/
theorem find_grid_points_in_polygon_above_raises :
    find_grid_points_in_polygon polyAboveGrid [0, 1] [0, 1] =
      .error "index out of bounds" := by
  norm_num [find_grid_points_in_polygon, polyAboveGrid, XYPolygon.minY,
    XYPolygon.maxY, XYPolygon.minX, XYPolygon.maxX,
    find_min_value_greater_or_equal, searchsortedLeft, List.countP_cons]

/-- Witness for C4 at a polygon entirely below a concrete two-point grid. -/
theorem find_grid_points_in_polygon_ok_iff_witness :
    ((∃ out, find_grid_points_in_polygon polyBelowGrid [0, 1] [0, 1] = .ok out) ↔
      (polyBelowGrid.minY ≤ ([0, 1] : List ℚ).getLast (by simp) ∧
       polyBelowGrid.minX ≤ ([0, 1] : List ℚ).getLast (by simp))) ∧
    ((polyBelowGrid.maxY < ([0, 1] : List ℚ).head (by simp) ∨
       polyBelowGrid.maxX < ([0, 1] : List ℚ).head (by simp)) →
      polyBelowGrid.minY ≤ ([0, 1] : List ℚ).getLast (by simp) →
      polyBelowGrid.minX ≤ ([0, 1] : List ℚ).getLast (by simp) →
      find_grid_points_in_polygon polyBelowGrid [0, 1] [0, 1] = .ok ([], [])) :=
  find_grid_points_in_polygon_ok_iff polyBelowGrid [0, 1] [0, 1]
    (by simp) (by simp) (by norm_num [List.sorted_cons]) (by norm_num [List.sorted_cons])

/-!
## Translation of grid membership (`_extrap_polygons_to_grid_points`)

For each storm object and buffer, the source computes the planar
displacement of the first exterior vertex between the original and the
extrapolated polygon, converts it to an integer row / column shift with
`int(numpy.round(diff / spacing))`, and adds that shift uniformly to the
original membership index lists — no re-rasterization.
-/

/-- Per-storm, per-buffer payload of `_extrap_polygons_to_grid_points`:
original and extrapolated x-y polygons plus the original grid-membership
lists computed by the rasterizer. -/
structure BufferGridData where
  origPoly : XYPolygon
  extrapPoly : XYPolygon
  origRows : List ℤ
  origCols : List ℤ

/-- The body of `_extrap_polygons_to_grid_points` for one storm object and
one buffer.  `itrunc (... : ℚ)` is Python's `int(...)` applied to the
float result of `numpy.round`. -/
def translate_grid_membership (origPoly extrapPoly : XYPolygon)
    (grid_spacing_x grid_spacing_y : ℚ) (origRows origCols : List ℤ) :
    List ℤ × List ℤ :=
  let x_diff := extrapPoly.x0 - origPoly.x0
  let y_diff := extrapPoly.y0 - origPoly.y0
  let row_diff : ℤ := itrunc ((nround (y_diff / grid_spacing_y) : ℤ) : ℚ)
  let column_diff : ℤ := itrunc ((nround (x_diff / grid_spacing_x) : ℤ) : ℚ)
  (origRows.map (· + row_diff), origCols.map (· + column_diff))

/-- `_extrap_polygons_to_grid_points` over the whole storm-object table
(one entry per storm object, one sub-entry per distance buffer). -/
def extrap_polygons_to_grid_points (grid_spacing_x grid_spacing_y : ℚ)
    (table : List (List BufferGridData)) : List (List (List ℤ × List ℤ)) :=
  table.map fun storm => storm.map fun b =>
    translate_grid_membership b.origPoly b.extrapPoly
      grid_spacing_x grid_spacing_y b.origRows b.origCols

/-- C7: for every storm and buffer, the translated membership lists are
`orig_rows + round(dy / y_spacing)` and `orig_columns + round(dx / x_spacing)`,
where `(dx, dy)` is the displacement of the polygon's first exterior
vertex; the integer shift is applied uniformly to every original index,
with no re-rasterization. -/
theorem extrap_polygons_to_grid_points_uniform_shift
    (grid_spacing_x grid_spacing_y : ℚ) (table : List (List BufferGridData)) :
    extrap_polygons_to_grid_points grid_spacing_x grid_spacing_y table =
      table.map (fun storm => storm.map (fun b =>
        (b.origRows.map
          (· + nround ((b.extrapPoly.y0 - b.origPoly.y0) / grid_spacing_y)),
         b.origCols.map
          (· + nround ((b.extrapPoly.x0 - b.origPoly.x0) / grid_spacing_x))))) := by
  simp [extrap_polygons_to_grid_points, translate_grid_membership, itrunc_intCast]

/-!
## Probability accumulation and finalization (`create_forecast_grids`)

Inside the per-initialization-time loop the source keeps a float
probability-sum matrix and an integer count matrix, both initialized to
zero.  For each (buffer, storm object, lead time) it skips empty
membership lists (`len(these_rows) == 0`, a storm off-grid) and otherwise
executes

  `this_num_forecast_matrix[these_rows, these_columns] += 1`
  `this_probability_matrix_xy[these_rows, these_columns] = (... + prob)`

numpy fancy-indexed `+=` and assignment write each unique (row, column)
pair once, so one contribution touches a cell exactly when the cell
occurs among its zipped (row, column) pairs.  After the lead-time loop
the source divides `sum / count` elementwise; numpy emits NaN (modelled
`none`) at cells whose count is zero (0.0 / 0).
-/

/-- Accumulator state: probability-sum and count matrices, indexed by
(row, column). -/
structure AccumState where
  probSum : ℤ × ℤ → ℚ
  count : ℤ × ℤ → ℕ

/-- The zero-initialized accumulator (`numpy.full(..., 0.)` and
`numpy.full(..., 0, dtype=int)`). -/
def initAccum : AccumState := ⟨fun _ => 0, fun _ => 0⟩

/-- One (storm object, buffer, lead time) contribution: membership index
lists and the storm's normalized forecast probability for that buffer. -/
structure Contribution where
  rows : List ℤ
  cols : List ℤ
  prob : ℚ

/-- The (row, column) pairs addressed by numpy fancy indexing with the
two parallel index lists. -/
def Contribution.pairs (c : Contribution) : List (ℤ × ℤ) := c.rows.zip c.cols

/-- The body of the accumulation loop for one contribution, including the
`len(these_rows) == 0: continue` guard. -/
def add_contribution (st : AccumState) (c : Contribution) : AccumState :=
  if c.rows = [] then st
  else
    { probSum := fun cell =>
        if cell ∈ c.pairs then st.probSum cell + c.prob else st.probSum cell,
      count := fun cell =>
        if cell ∈ c.pairs then st.count cell + 1 else st.count cell }

/-- The whole accumulation loop over all (buffer, storm, lead time)
contributions of one initialization time. -/
def run_accumulation (cs : List Contribution) : AccumState :=
  cs.foldl add_contribution initAccum

/-- The elementwise finalization `sum / count`; a zero count yields NaN
(modelled as `none`), since the sum at such a cell is also zero. -/
def finalize_cell (st : AccumState) (cell : ℤ × ℤ) : Option ℚ :=
  if st.count cell = 0 then none
  else some (st.probSum cell / st.count cell)

theorem add_contribution_count (st : AccumState) (c : Contribution)
    (cell : ℤ × ℤ) :
    (add_contribution st c).count cell =
      st.count cell + (if cell ∈ c.pairs then 1 else 0) := by
  unfold add_contribution
  by_cases hr : c.rows = []
  · have hp : c.pairs = [] := by simp [Contribution.pairs, hr]
    simp [hr, hp]
  · by_cases hm : cell ∈ c.pairs <;> simp [hr, hm]

theorem add_contribution_probSum (st : AccumState) (c : Contribution)
    (cell : ℤ × ℤ) :
    (add_contribution st c).probSum cell =
      st.probSum cell + (if cell ∈ c.pairs then c.prob else 0) := by
  unfold add_contribution
  by_cases hr : c.rows = []
  · have hp : c.pairs = [] := by simp [Contribution.pairs, hr]
    simp [hr, hp]
  · by_cases hm : cell ∈ c.pairs <;> simp [hr, hm]

theorem foldl_accum_count (cs : List Contribution) :
    ∀ (st : AccumState) (cell : ℤ × ℤ),
      (cs.foldl add_contribution st).count cell =
        st.count cell + cs.countP (fun c => decide (cell ∈ c.pairs)) := by
  induction cs with
  | nil => intro st cell; simp
  | cons c rest ih =>
    intro st cell
    rw [List.foldl_cons, ih, List.countP_cons, add_contribution_count]
    by_cases hm : cell ∈ c.pairs
    · simp [hm]; omega
    · simp [hm]

theorem foldl_accum_probSum (cs : List Contribution) :
    ∀ (st : AccumState) (cell : ℤ × ℤ),
      (cs.foldl add_contribution st).probSum cell =
        st.probSum cell +
          ((cs.filter (fun c => decide (cell ∈ c.pairs))).map
            Contribution.prob).sum := by
  induction cs with
  | nil => intro st cell; simp
  | cons c rest ih =>
    intro st cell
    rw [List.foldl_cons, ih, List.filter_cons, add_contribution_probSum]
    by_cases hm : cell ∈ c.pairs
    · simp [hm]; ring
    · simp [hm]

/-- C3: a grid cell covered by no contribution of any storm, buffer, or
lead time (so its count stays 0) finalizes to NaN (`none`), never 0. -/
theorem finalize_uncovered_cell_nan (cs : List Contribution) (cell : ℤ × ℤ)
    (h : ∀ c ∈ cs, cell ∉ c.pairs) :
    finalize_cell (run_accumulation cs) cell = none := by
  have hc : (run_accumulation cs).count cell = 0 := by
    rw [run_accumulation, foldl_accum_count]
    simp only [initAccum, Nat.zero_add]
    exact List.countP_eq_zero.mpr (fun c hcm => by simpa using h c hcm)
  simp [finalize_cell, hc]

/-- Witness for C3: one contribution covering only cell (0, 0); cell
(5, 5) finalizes to NaN. -/
theorem finalize_uncovered_cell_nan_witness :
    (∀ c ∈ [Contribution.mk [0] [0] (1/2)], (5, 5) ∉ c.pairs) ∧
      finalize_cell (run_accumulation [Contribution.mk [0] [0] (1/2)]) (5, 5) =
        none :=
  ⟨by decide, finalize_uncovered_cell_nan _ _ (by decide)⟩

/-- C6: a covered cell finalizes to the arithmetic mean of the
probabilities of the contributions covering it — their sum divided by
their count, not clamped. -/
theorem finalize_covered_cell_mean (cs : List Contribution) (cell : ℤ × ℤ)
    (h : 0 < cs.countP (fun c => decide (cell ∈ c.pairs))) :
    finalize_cell (run_accumulation cs) cell =
      some (((cs.filter (fun c => decide (cell ∈ c.pairs))).map
            Contribution.prob).sum /
          (cs.countP (fun c => decide (cell ∈ c.pairs)) : ℚ)) := by
  have hc : (run_accumulation cs).count cell =
      cs.countP (fun c => decide (cell ∈ c.pairs)) := by
    rw [run_accumulation, foldl_accum_count]; simp [initAccum]
  have hs : (run_accumulation cs).probSum cell =
      ((cs.filter (fun c => decide (cell ∈ c.pairs))).map
        Contribution.prob).sum := by
    rw [run_accumulation, foldl_accum_probSum]; simp [initAccum]
  rw [finalize_cell, hc, hs, if_neg (by omega)]

/-- Witness for C6: two contributions with normalized probabilities 0.4
and 0.6 both covering cell (3, 4) finalize to exactly 0.5 there. -/
theorem finalize_covered_cell_mean_witness :
    0 < List.countP (fun c => decide ((3, 4) ∈ c.pairs))
        [Contribution.mk [3] [4] (2/5), Contribution.mk [3] [4] (3/5)] ∧
      finalize_cell (run_accumulation
          [Contribution.mk [3] [4] (2/5), Contribution.mk [3] [4] (3/5)])
        (3, 4) = some (1/2) := by
  refine ⟨by decide, ?_⟩
  rw [finalize_covered_cell_mean _ _ (by decide)]
  norm_num [List.countP_cons, List.filter, Contribution.pairs]

/-!
## Lead-time schedule (`create_forecast_grids`, lines 1220-1226)

The source computes

  `num_lead_times = 1 + int(numpy.round((max - min) / resolution))`
  `lead_times_seconds = numpy.linspace(min, max, num=num_lead_times,
                                       dtype=int)`

`numpy.linspace` with `endpoint=True` places `num` evenly spaced values
from `min` to `max` (the endpoint exactly); the `int` dtype truncates each
value toward zero.
-/

/-- `numpy.linspace(start, stop, num, dtype=int)` for integer endpoints:
evenly spaced values with the endpoint exact, truncated toward zero. -/
def linspace_int (start stop : ℤ) (num : ℕ) : List ℤ :=
  if num = 1 then [start]
  else
    (List.range num).map (fun i =>
      if i = num - 1 then stop
      else itrunc ((start : ℚ) +
        (i : ℚ) * (((stop - start : ℤ) : ℚ) / (((num : ℤ) - 1 : ℤ) : ℚ))))

/-- `1 + int(numpy.round((max_lead_time_sec - min_lead_time_sec) /
lead_time_resolution_sec))`. -/
def num_lead_times (min_lead_time_sec max_lead_time_sec
    lead_time_resolution_sec : ℤ) : ℕ :=
  (1 + nround (((max_lead_time_sec - min_lead_time_sec : ℤ) : ℚ) /
    (lead_time_resolution_sec : ℚ))).toNat

/-- The lead-time schedule actually used by `create_forecast_grids`. -/
def lead_times_seconds (min_lead_time_sec max_lead_time_sec
    lead_time_resolution_sec : ℤ) : List ℤ :=
  linspace_int min_lead_time_sec max_lead_time_sec
    (num_lead_times min_lead_time_sec max_lead_time_sec
      lead_time_resolution_sec)

/-- C9 counterexample: with `min = 0`, `max = 10`, `resolution = 3`
(a valid configuration: `0 ≤ min < max`, `resolution > 0`), the schedule
is `[0, 3, 6, 10]`; the claimed instant `9 = min + 3·resolution ≤ max` is
skipped, so the schedule is not the arithmetic progression the claim
describes. -/
theorem lead_times_seconds_cex :
    lead_times_seconds 0 10 3 = [0, 3, 6, 10] ∧
      (9 : ℤ) ∉ lead_times_seconds 0 10 3 ∧
      (0 : ℤ) ≤ 0 ∧ (0 : ℤ) < 10 ∧ (0 : ℤ) < 3 ∧
      (9 : ℤ) = 0 + 3 * 3 ∧ (9 : ℤ) ≤ 10 := by
  have h : lead_times_seconds 0 10 3 = [0, 3, 6, 10] := by
    have h4 : Int.toNat 4 = 4 := rfl
    norm_num [lead_times_seconds, num_lead_times, linspace_int, nround, itrunc]
    norm_num [h4, List.range_succ, List.range_zero]
  refine ⟨h, by rw [h]; decide, by norm_num, by norm_num, by norm_num,
    by norm_num, by norm_num⟩

/-- C9 (amended): for integer configurations with `0 ≤ min < max` and
`resolution > 0` such that the resolution divides `max - min`, the
schedule is exactly the ascending arithmetic progression
`min, min + res, ..., max`; when the resolution does not divide the span,
the truncated-`linspace` schedule can skip claimed instants. -/
theorem lead_times_seconds_arith (minL maxL res : ℤ)
    (_h0 : 0 ≤ minL) (h1 : minL < maxL) (h2 : 0 < res)
    (hd : res ∣ (maxL - minL)) :
    lead_times_seconds minL maxL res =
      (List.range (((maxL - minL) / res).toNat + 1)).map
        (fun i : ℕ => minL + (i : ℤ) * res) ∧
    List.Sorted (· < ·) (lead_times_seconds minL maxL res) := by
  obtain ⟨d, hdd⟩ := hd
  have hdpos : 0 < d := by nlinarith
  have hdiv : (maxL - minL) / res = d := by
    rw [hdd]
    exact Int.mul_ediv_cancel_left d (by omega)
  have hresq : (res : ℚ) ≠ 0 := by exact_mod_cast (by omega : res ≠ 0)
  have hq : ((maxL - minL : ℤ) : ℚ) / (res : ℚ) = (d : ℚ) := by
    rw [hdd]
    push_cast
    field_simp
  have hnr : nround (((maxL - minL : ℤ) : ℚ) / (res : ℚ)) = d := by
    rw [hq, nround_intCast]
  have hnum : num_lead_times minL maxL res = d.toNat + 1 := by
    unfold num_lead_times
    rw [hnr]
    omega
  have heq : lead_times_seconds minL maxL res =
      (List.range (d.toNat + 1)).map (fun i : ℕ => minL + (i : ℤ) * res) := by
    unfold lead_times_seconds linspace_int
    rw [hnum, if_neg (by omega)]
    apply List.map_congr_left
    intro i hi
    have hi2 : i < d.toNat + 1 := List.mem_range.mp hi
    have hcast : ((d.toNat + 1 : ℕ) : ℤ) - 1 = d := by omega
    by_cases hlast : i = d.toNat + 1 - 1
    · rw [if_pos hlast]
      have : (i : ℤ) = d := by omega
      rw [this, mul_comm]
      linarith [hdd]
    · rw [if_neg hlast]
      have hstep : ((maxL - minL : ℤ) : ℚ) / (((d.toNat + 1 : ℕ) : ℤ) - 1 : ℤ) =
          (res : ℚ) := by
        rw [hcast, hdd]
        have hdq : (d : ℚ) ≠ 0 := by exact_mod_cast (by omega : d ≠ 0)
        push_cast
        field_simp
      rw [hstep]
      have : (minL : ℚ) + (i : ℚ) * (res : ℚ) = ((minL + (i : ℤ) * res : ℤ) : ℚ) := by
        push_cast
        ring
      rw [this, itrunc_intCast]
  refine ⟨by rw [heq, hdiv], ?_⟩
  rw [heq]
  refine List.Pairwise.map _ ?_ (List.pairwise_lt_range _)
  intro a b hab
  have : (a : ℤ) < (b : ℤ) := by exact_mod_cast hab
  exact add_lt_add_left (mul_lt_mul_of_pos_right this h2) minL

/-- Witness for C9 (amended) at `min = 0`, `max = 4`, `resolution = 2`. -/
theorem lead_times_seconds_arith_witness :
    (lead_times_seconds 0 4 2 =
      (List.range (((4 - 0 : ℤ) / 2).toNat + 1)).map
        (fun i : ℕ => 0 + (i : ℤ) * 2) ∧
     List.Sorted (· < ·) (lead_times_seconds 0 4 2)) :=
  lead_times_seconds_arith 0 4 2 (by norm_num) (by norm_num) (by norm_num)
    (by norm_num)

/-!
## Lat-long output coordinates (`create_forecast_grids`, lines 1403-1441)

With `interp_to_latlng_grid=True`, every initialization time `i` calls
`_interp_probabilities_to_latlng_grid`, which recomputes the lat-long
grid (from the same x-y coordinate vectors every time) and returns the
interpolated probability matrix plus the two coordinate vectors.  The
probability matrix is stored for every `i`, but the
`GRID_LATITUDES_KEY` / `GRID_LONGITUDES_KEY` entries are updated only when
`i == 0` (the `if i != 0: continue` precedes the update), so every later
iteration's coordinate vectors are discarded.
-/

/-- The triple returned by `_interp_probabilities_to_latlng_grid` for one
initialization time. -/
structure InterpResult where
  probMatrixLL : ℤ × ℤ → ℚ
  gridLats : List ℚ
  gridLngs : List ℚ

/-- The lat-long part of the output dictionary `gridded_forecast_dict`. -/
structure GriddedForecastDict where
  latlngProbs : List (ℤ × ℤ → ℚ)
  gridLats : Option (List ℚ)
  gridLngs : Option (List ℚ)

/-- One iteration of the initialization-time loop, lat-long branch:
stores the interpolated matrix for every `i` and the coordinate vectors
only at `i = 0`.  `interp i` is the result of
`_interp_probabilities_to_latlng_grid` during iteration `i`. -/
def latlngStep (interp : ℕ → InterpResult) (st : GriddedForecastDict)
    (i : ℕ) : GriddedForecastDict :=
  { latlngProbs := st.latlngProbs ++ [(interp i).probMatrixLL],
    gridLats := if i = 0 then some (interp i).gridLats else st.gridLats,
    gridLngs := if i = 0 then some (interp i).gridLngs else st.gridLngs }

/-- The initialization-time loop of `create_forecast_grids`, restricted to
the lat-long outputs, over `num_init_times` initialization times. -/
def create_forecast_grids_latlng (num_init_times : ℕ)
    (interp : ℕ → InterpResult) : GriddedForecastDict :=
  (List.range num_init_times).foldl (latlngStep interp) ⟨[], none, none⟩

/-- C10: with at least one initialization time, the stored lat-long
coordinate vectors are exactly those computed while processing the first
initialization time; every iteration's probability matrix is stored, but
the coordinate vectors recomputed at later iterations are discarded. -/
theorem latlng_coords_from_first_init_time (T : ℕ)
    (interp : ℕ → InterpResult) (h : 1 ≤ T) :
    (create_forecast_grids_latlng T interp).gridLats =
        some (interp 0).gridLats ∧
      (create_forecast_grids_latlng T interp).gridLngs =
        some (interp 0).gridLngs ∧
      (create_forecast_grids_latlng T interp).latlngProbs =
        (List.range T).map (fun i => (interp i).probMatrixLL) := by
  induction T with
  | zero => omega
  | succ n ih =>
    unfold create_forecast_grids_latlng at *
    rw [List.range_succ, List.foldl_append, List.foldl_cons, List.foldl_nil]
    rcases Nat.eq_zero_or_pos n with h0 | hpos
    · subst h0
      simp [latlngStep]
    · have ihh := ih hpos
      have hn : n ≠ 0 := by omega
      refine ⟨?_, ?_, ?_⟩
      · simp [latlngStep, hn, ihh.1]
      · simp [latlngStep, hn, ihh.2.1]
      · simp [latlngStep, ihh.2.2, List.range_succ]

/-- A concrete interpolation family whose coordinate vectors differ per
iteration, witnessing the provenance of the stored vectors. -/
def c10Interp : ℕ → InterpResult :=
  fun i =>
    { probMatrixLL := fun _ => 0,
      gridLats := [(i : ℚ)],
      gridLngs := [(i : ℚ) + 1] }

/-- Witness for C10 at two initialization times. -/
theorem latlng_coords_from_first_init_time_witness :
    (create_forecast_grids_latlng 2 c10Interp).gridLats =
        some (c10Interp 0).gridLats ∧
      (create_forecast_grids_latlng 2 c10Interp).gridLngs =
        some (c10Interp 0).gridLngs ∧
      (create_forecast_grids_latlng 2 c10Interp).latlngProbs =
        (List.range 2).map (fun i => (c10Interp i).probMatrixLL) :=
  latlng_coords_from_first_init_time 2 c10Interp (by norm_num)

/-!
## Out-of-bounds translated membership (`create_forecast_grids`, lines
1349-1369, with `_extrap_polygons_to_grid_points`)

`create_forecast_grids` rasterizes the base buffers onto the fixed
default grid, so the original membership indices are in bounds; but the
per-lead-time translation adds an unchecked integer shift and the
accumulation loop's only guard is `len(these_rows) == 0`.  A storm near
the grid edge whose extrapolated polygon moved far enough therefore
produces indices past the end of the grid, which numpy fancy indexing
raises on (`IndexError`) — or, for negative indices, silently wraps to
the opposite edge.
-/

/-- A buffer polygon overlapping the top row of the 2-row grid
`ys = [0, 1000]`. -/
def c5OrigPoly : XYPolygon :=
  { x0 := 0, y0 := 800, restVerts := [(1000, 800), (1000, 1200), (0, 1200)],
    mem := fun _ _ => true }

/-- The same polygon extrapolated 5000 m northwards (five grid rows). -/
def c5ExtrapPoly : XYPolygon :=
  { x0 := 0, y0 := 5800, restVerts := [(1000, 5800), (1000, 6200), (0, 6200)],
    mem := fun _ _ => true }

/-- C5 failing input: on the 2-by-2 grid with 1000-m spacing, the base
rasterization of `c5OrigPoly` yields in-bounds membership rows `[1, 1]`,
but translating it for the extrapolated polygon yields rows `[6, 6]`;
the list is non-empty, so the accumulation loop does not skip it, and row
index 6 is outside the 2-row grid. -/
theorem accumulation_index_out_of_bounds :
    find_grid_points_in_polygon c5OrigPoly [0, 1000] [0, 1000] =
      .ok ([1, 1], [0, 1]) ∧
      (∀ r ∈ ([1, 1] : List ℤ), 0 ≤ r ∧ r < (([0, 1000] : List ℚ).length : ℤ)) ∧
      translate_grid_membership c5OrigPoly c5ExtrapPoly 1000 1000 [1, 1] [0, 1] =
        ([6, 6], [0, 1]) ∧
      (([6, 6] : List ℤ) ≠ []) ∧
      ¬ ((6 : ℤ) < (([0, 1000] : List ℚ).length : ℤ)) := by
  refine ⟨?_, by decide, ?_, by decide, by decide⟩
  · norm_num [find_grid_points_in_polygon, c5OrigPoly, XYPolygon.minX,
      XYPolygon.maxX, XYPolygon.minY, XYPolygon.maxY,
      find_min_value_greater_or_equal, find_max_value_less_than_or_equal,
      searchsortedLeft, searchsortedRight, List.countP_cons, intRange,
      List.range_succ, getQ]
    norm_num [show Int.toNat 2 = 2 from rfl, List.range_succ,
      List.filterMap_cons]
  · norm_num [translate_grid_membership, c5OrigPoly, c5ExtrapPoly, nround,
      itrunc]
